import Mathlib

/-!
Verification development for the Maven API Explorer sources.

The definitions below are shallow embeddings of the TypeScript services:
MavenParser (POM parsing and dependency-tree resolution), CacheService
(five in-memory stores with persistence), UserInteractionService (the
missing-dependency menu) and JarAnalyzer (archive acquisition and class
extraction).  File, network and console effects are modelled by explicit
environments and event traces; asynchronous awaits are sequential calls,
matching the single-threaded execution of the source.
-/

namespace MavenExplorer

/-- Dependency record, mirroring the MavenDependency interface of
models/types.ts: coordinate fields, optional scope string and the
optional flag (parsed from the string value "true"). -/
structure MavenDependency where
  groupId : String
  artifactId : String
  version : String
  scope : Option String
  optional : Bool
deriving DecidableEq, Repr

/-- Coordinate key, mirroring the template literal
`${groupId}:${artifactId}:${version}` used in resolveDependency. -/
def depKey (d : MavenDependency) : String :=
  d.groupId ++ ":" ++ d.artifactId ++ ":" ++ d.version

/-- Accumulator of resolveDependencyTree: the resolvedDeps array and the
processedDeps key set (a Set of strings, modelled as a list queried by
containment). -/
structure ResolveState where
  resolved : List MavenDependency
  processed : List String
deriving DecidableEq, Repr

/-- Environment of recursive resolution: for a coordinate key, either the
parsed dependency list of that POM (local read or successful remote fetch
plus parse) or an error message (read failure and non-ok response, network
throw, or parse throw; all are abandoned identically by the catch in
resolveDependency).  A key absent from the list behaves as a failed fetch. -/
def World : Type := List (String × Except String (List MavenDependency))

/-- Outcome of trying to obtain and parse the POM of one coordinate. -/
def fetchPom (w : World) (k : String) : Except String (List MavenDependency) :=
  match List.lookup k w with
  | some r => r
  | none => Except.error "not found"

/-- Recursive resolution of one dependency, mirroring
MavenParser.resolveDependency: the processed/optional guard runs first;
then the dependency is appended and marked processed; then its POM is
obtained, and on success its transitive dependencies are walked in order,
skipping provided/test scopes; any failure abandons the subtree with the
state as already accumulated.  The source recursion has no fuel; the Nat
argument is a recursion budget, shown sufficient by the stability theorem
for claim C1. -/
def resolveDependency (w : World) (fuel : Nat) (dep : MavenDependency)
    (st : ResolveState) : ResolveState :=
  match fuel with
  | 0 => st
  | Nat.succ f =>
    if st.processed.contains (depKey dep) || dep.optional then st
    else
      let st1 : ResolveState :=
        ⟨st.resolved ++ [dep], depKey dep :: st.processed⟩
      match fetchPom w (depKey dep) with
      | Except.error _ => st1
      | Except.ok deps =>
        deps.foldl (fun acc td =>
          if td.scope == some "provided" || td.scope == some "test" then acc
          else resolveDependency w f td acc) st1

/-- Loop body for the transitive dependencies of a resolved POM (the
for-loop with the provided/test continue inside resolveDependency). -/
def transitiveStep (w : World) (f : Nat) (acc : ResolveState)
    (td : MavenDependency) : ResolveState :=
  if td.scope == some "provided" || td.scope == some "test" then acc
  else resolveDependency w f td acc

/-- Loop body of resolveDependencyTree over the declared root
dependencies (no scope filter at the top level). -/
def rootStep (w : World) (fuel : Nat) (st : ResolveState)
    (dep : MavenDependency) : ResolveState :=
  resolveDependency w fuel dep st

/-- Full tree resolution, mirroring MavenParser.resolveDependencyTree on a
cache miss: fresh resolvedDeps and processedDeps, then resolveDependency
for each declared dependency of the project in order. -/
def resolveDependencyTree (w : World) (fuel : Nat)
    (roots : List MavenDependency) : List MavenDependency :=
  (roots.foldl (rootStep w fuel) ⟨[], []⟩).resolved

/-- Unfolding of resolveDependency at positive fuel in terms of the named
loop body. -/
theorem resolveDependency_succ (w : World) (f : Nat) (dep : MavenDependency)
    (st : ResolveState) :
    resolveDependency w (f + 1) dep st =
      if st.processed.contains (depKey dep) || dep.optional then st
      else
        let st1 : ResolveState :=
          ⟨st.resolved ++ [dep], depKey dep :: st.processed⟩
        match fetchPom w (depKey dep) with
        | Except.error _ => st1
        | Except.ok deps => deps.foldl (transitiveStep w f) st1 := by
  rw [resolveDependency]
  rfl

/-- Preservation of a property along List.foldl. -/
theorem foldl_pres {σ α : Type _} (P : σ → Prop) (step : σ → α → σ)
    (h : ∀ s a, P s → P (step s a)) :
    ∀ (l : List α) (s : σ), P s → P (l.foldl step s) := by
  intro l
  induction l with
  | nil => intro s hs; exact hs
  | cons a l ih => intro s hs; exact ih _ (h s a hs)

/-- Two folds agree when the step functions agree on all states satisfying
an invariant preserved by the first step function. -/
theorem foldl_eq_of {σ α : Type _} (Q : σ → Prop) (s1 s2 : σ → α → σ)
    (hstep : ∀ s a, Q s → s1 s a = s2 s a)
    (hpres : ∀ s a, Q s → Q (s1 s a)) :
    ∀ (l : List α) (s : σ), Q s → l.foldl s1 s = l.foldl s2 s := by
  intro l
  induction l with
  | nil => intro s _; rfl
  | cons a l ih =>
    intro s hs
    have h1 : s1 s a = s2 s a := hstep s a hs
    simp only [List.foldl_cons, ← h1]
    exact ih _ (hpres s a hs)

/-- Pushing a key onto a key list preserves containment. -/
theorem contains_cons_of (l : List String) (a k : String)
    (h : l.contains k = true) : (a :: l).contains k = true := by
  simp only [List.contains_cons, h, Bool.or_true]

/-- A key list contains a freshly pushed key. -/
theorem contains_cons_self (l : List String) (a : String) :
    (a :: l).contains a = true := by
  simp [List.contains_cons]

/-- The processed key set only grows during resolution. -/
theorem processed_mono (w : World) :
    ∀ (f : Nat) (dep : MavenDependency) (st : ResolveState) (k : String),
      st.processed.contains k = true →
      (resolveDependency w f dep st).processed.contains k = true := by
  intro f
  induction f with
  | zero =>
    intro dep st k h
    rw [resolveDependency]
    exact h
  | succ f ih =>
    intro dep st k h
    rw [resolveDependency_succ]
    split
    · exact h
    · split
      · exact contains_cons_of _ _ _ h
      · refine foldl_pres (fun s => s.processed.contains k = true)
          (transitiveStep w f) ?_ _ _ ?_
        · intro s a hs
          unfold transitiveStep
          split
          · exact hs
          · exact ih a s k hs
        · exact contains_cons_of _ _ _ h

/-- Invariant tying the resolvedDeps array to the processedDeps set: the
coordinate keys of the accumulated dependencies are pairwise distinct, and
each one is recorded as processed. -/
def ResolveInv (st : ResolveState) : Prop :=
  (st.resolved.map depKey).Nodup ∧
  ∀ d ∈ st.resolved, st.processed.contains (depKey d) = true

/-- Resolution preserves the no-duplicates invariant: the guard before the
append guarantees a freshly appended key was never appended before. -/
theorem resolveInv_pres (w : World) :
    ∀ (f : Nat) (dep : MavenDependency) (st : ResolveState),
      ResolveInv st → ResolveInv (resolveDependency w f dep st) := by
  intro f
  induction f with
  | zero =>
    intro dep st h
    rw [resolveDependency]
    exact h
  | succ f ih =>
    intro dep st h
    rw [resolveDependency_succ]
    split
    · exact h
    next hg =>
      have hkey : st.processed.contains (depKey dep) = false := by
        cases hc : st.processed.contains (depKey dep) with
        | false => rfl
        | true => exact absurd (by rw [hc, Bool.true_or]) hg
      have hnotmem : depKey dep ∉ st.resolved.map depKey := by
        intro hmem
        rcases List.mem_map.mp hmem with ⟨d, hd, hdk⟩
        have hcont := h.2 d hd
        rw [hdk, hkey] at hcont
        exact absurd hcont (by simp)
      have hInv1 :
          ResolveInv ⟨st.resolved ++ [dep], depKey dep :: st.processed⟩ := by
        constructor
        · rw [List.map_append, List.nodup_append]
          refine ⟨h.1, by simp, ?_⟩
          intro x hx hx'
          simp only [List.map_cons, List.map_nil, List.mem_singleton] at hx'
          subst hx'
          exact hnotmem hx
        · intro d hd
          rcases List.mem_append.mp hd with hd | hd
          · exact contains_cons_of _ _ _ (h.2 d hd)
          · simp only [List.mem_singleton] at hd
            subst hd
            exact contains_cons_self _ _
      split
      · exact hInv1
      · refine foldl_pres ResolveInv (transitiveStep w f) ?_ _ _ hInv1
        intro s a hs
        unfold transitiveStep
        split
        · exact hs
        · exact ih a s hs

/-- The resolved list produced by resolveDependencyTree has pairwise
distinct coordinate keys, for any environment, fuel and root list. -/
theorem resolveDependencyTree_nodup (w : World) (fuel : Nat)
    (roots : List MavenDependency) :
    ((resolveDependencyTree w fuel roots).map depKey).Nodup := by
  have h : ResolveInv (roots.foldl (rootStep w fuel) ⟨[], []⟩) := by
    refine foldl_pres ResolveInv (rootStep w fuel) ?_ _ _ ?_
    · intro s a hs
      exact resolveInv_pres w fuel a s hs
    · exact ⟨List.nodup_nil, by intro d hd; cases hd⟩
  exact h.1

/-- Keys of the environment whose POM resolves successfully; only these
keys can trigger a recursive expansion. -/
def okKeys (w : World) : List String :=
  w.filterMap (fun p => match p.2 with
    | Except.ok _ => some p.1
    | Except.error _ => none)

/-- Number of successfully resolvable keys not yet processed; an upper
bound on the remaining recursion depth of resolveDependency. -/
def resolveMeasure (w : World) (st : ResolveState) : Nat :=
  (okKeys w).countP (fun k => !(st.processed.contains k))

/-- A key whose POM lookup succeeds is among the successful keys. -/
theorem fetch_ok_mem_okKeys (w : World) (k : String)
    (deps : List MavenDependency)
    (h : fetchPom w k = Except.ok deps) : k ∈ okKeys w := by
  induction w with
  | nil => simp [fetchPom, List.lookup] at h
  | cons p w ih =>
    obtain ⟨a, r⟩ := p
    by_cases hk : k = a
    · subst hk
      have hl : fetchPom ((k, r) :: w) k = r := by
        unfold fetchPom
        rw [List.lookup_cons]
        simp
      rw [hl] at h
      subst h
      simp [okKeys]
    · have hba : (k == a) = false := by
        simp [hk]
      have hl : fetchPom ((a, r) :: w) k = fetchPom w k := by
        unfold fetchPom
        rw [List.lookup_cons, hba]
      rw [hl] at h
      have hmem := ih h
      cases r with
      | ok v =>
        simp only [okKeys, List.filterMap_cons]
        exact List.mem_cons_of_mem _ hmem
      | error e => simpa [okKeys] using hmem

/-- Strict countP decrease: if the first predicate implies the second on
the list and some member separates them, the first counts strictly fewer
elements. -/
theorem countP_lt_of {α : Type _} (p q : α → Bool) :
    ∀ (l : List α), (∀ x ∈ l, p x = true → q x = true) →
      ∀ x ∈ l, q x = true → p x = false → l.countP p < l.countP q := by
  intro l
  induction l with
  | nil => intro _ x hx; cases hx
  | cons a l ih =>
    intro himp x hx hq hp
    rw [List.countP_cons, List.countP_cons]
    rcases List.mem_cons.mp hx with hxa | hxl
    · subst hxa
      rw [hp, hq]
      have hle : l.countP p ≤ l.countP q :=
        List.countP_mono_left (fun y hy => himp y (List.mem_cons_of_mem _ hy))
      have h1 : (if (false : Bool) = true then 1 else 0) = 0 := rfl
      have h2 : (if (true : Bool) = true then 1 else 0) = 1 := rfl
      rw [h1, h2]
      omega
    · have hlt : l.countP p < l.countP q :=
        ih (fun y hy => himp y (List.mem_cons_of_mem _ hy)) x hxl hq hp
      have hif : (if p a = true then 1 else 0) ≤ (if q a = true then 1 else 0) := by
        cases hpa : p a with
        | false => simp
        | true => rw [himp a (List.mem_cons_self a l) hpa]
      omega

/-- The measure never increases during resolution. -/
theorem resolveMeasure_mono (w : World) (f : Nat) (dep : MavenDependency)
    (st : ResolveState) :
    resolveMeasure w (resolveDependency w f dep st) ≤ resolveMeasure w st := by
  refine List.countP_mono_left ?_
  intro k _ hk
  cases hc : st.processed.contains k with
  | false => simp
  | true =>
    have := processed_mono w f dep st k hc
    rw [this] at hk
    exact absurd hk (by simp)

/-- Marking an unprocessed successful key as processed strictly decreases
the measure. -/
theorem resolveMeasure_strict (w : World) (st : ResolveState)
    (dep : MavenDependency) (deps : List MavenDependency)
    (hkey : st.processed.contains (depKey dep) = false)
    (hfetch : fetchPom w (depKey dep) = Except.ok deps) :
    resolveMeasure w ⟨st.resolved ++ [dep], depKey dep :: st.processed⟩ <
      resolveMeasure w st := by
  refine countP_lt_of _ _ (okKeys w) ?_ (depKey dep)
    (fetch_ok_mem_okKeys w _ deps hfetch) ?_ ?_
  · intro k _ hk
    cases hc : st.processed.contains k with
    | false => simp
    | true =>
      have : (depKey dep :: st.processed).contains k = true :=
        contains_cons_of _ _ _ hc
      rw [this] at hk
      exact absurd hk (by simp)
  · rw [hkey]
    rfl
  · rw [contains_cons_self]
    rfl

/-- Fuel stability: any two fuel values strictly above the measure give
the same result, so the fuelled embedding computes the value of the
unfuelled source recursion, which therefore terminates. -/
theorem resolveDependency_stable (w : World) :
    ∀ (m : Nat) (st : ResolveState) (dep : MavenDependency) (f₁ f₂ : Nat),
      resolveMeasure w st ≤ m → resolveMeasure w st < f₁ →
      resolveMeasure w st < f₂ →
      resolveDependency w f₁ dep st = resolveDependency w f₂ dep st := by
  intro m
  induction m using Nat.strong_induction_on with
  | _ m ih =>
    intro st dep f₁ f₂ hm h1 h2
    obtain ⟨a, rfl⟩ : ∃ a, f₁ = a + 1 := ⟨f₁ - 1, by omega⟩
    obtain ⟨b, rfl⟩ : ∃ b, f₂ = b + 1 := ⟨f₂ - 1, by omega⟩
    rw [resolveDependency_succ, resolveDependency_succ]
    split
    · rfl
    next hg =>
      have hkey : st.processed.contains (depKey dep) = false := by
        cases hc : st.processed.contains (depKey dep) with
        | false => rfl
        | true => exact absurd (by rw [hc, Bool.true_or]) hg
      cases hfp : fetchPom w (depKey dep) with
      | error e => rfl
      | ok deps =>
        have hstrict :
            resolveMeasure w ⟨st.resolved ++ [dep], depKey dep :: st.processed⟩ <
              resolveMeasure w st :=
          resolveMeasure_strict w st dep deps hkey hfp
        set st1 : ResolveState :=
          ⟨st.resolved ++ [dep], depKey dep :: st.processed⟩ with hst1
        refine foldl_eq_of (fun s => resolveMeasure w s ≤ resolveMeasure w st1)
          (transitiveStep w a) (transitiveStep w b) ?_ ?_ deps st1 le_rfl
        · intro s d hQ
          unfold transitiveStep
          split
          · rfl
          · refine ih (resolveMeasure w st1) (by omega) s d a b hQ ?_ ?_
            · omega
            · omega
        · intro s d hQ
          unfold transitiveStep
          split
          · exact hQ
          · exact le_trans (resolveMeasure_mono w a d s) hQ

/-- The resolved list only grows during resolution. -/
theorem resolved_mono (w : World) :
    ∀ (f : Nat) (dep : MavenDependency) (st : ResolveState)
      (x : MavenDependency), x ∈ st.resolved →
      x ∈ (resolveDependency w f dep st).resolved := by
  intro f
  induction f with
  | zero =>
    intro dep st x h
    rw [resolveDependency]
    exact h
  | succ f ih =>
    intro dep st x h
    rw [resolveDependency_succ]
    split
    · exact h
    · split
      · exact List.mem_append_left _ h
      · refine foldl_pres (fun s => x ∈ s.resolved)
          (transitiveStep w f) ?_ _ _ ?_
        · intro s a hs
          unfold transitiveStep
          split
          · exact hs
          · exact ih a s x hs
        · exact List.mem_append_left _ h

/-- Predicate of the analyze loop of the analyze_project tool handler of
index.ts: dependencies with test or provided scope are skipped with a
continue before analyzeJar is invoked. -/
def shouldAnalyzeDependency (d : MavenDependency) : Bool :=
  !(d.scope == some "test" || d.scope == some "provided")

/-- Dependencies of a resolved list that reach analyzeJar in the
analyze_project tool handler. -/
def analyzedDependencies (deps : List MavenDependency) : List MavenDependency :=
  deps.filter shouldAnalyzeDependency

/-- Dependency B of the diamond example (declared by the root project). -/
def depB : MavenDependency := ⟨"g", "B", "1", none, false⟩

/-- Dependency C of the diamond example (declared by the root project). -/
def depC : MavenDependency := ⟨"g", "C", "1", none, false⟩

/-- Dependency D of the diamond example (declared by both B and C). -/
def depD : MavenDependency := ⟨"g", "D", "1", none, false⟩

/-- Diamond dependency graph: the root declares B and C, and both B and C
declare D. -/
def diamondWorld : World :=
  [("g:B:1", Except.ok [depD]),
   ("g:C:1", Except.ok [depD]),
   ("g:D:1", Except.ok [])]

/-- Dependency A of the cyclic example. -/
def depA : MavenDependency := ⟨"g", "A", "1", none, false⟩

/-- Cyclic manifest graph: A declares B and B declares A. -/
def cycleWorld : World :=
  [("g:A:1", Except.ok [depB]),
   ("g:B:1", Except.ok [depA])]

/-- Top-level dependency with test scope for the scope-filtering example. -/
def depT : MavenDependency := ⟨"g", "T", "1", some "test", false⟩

/-- Provided-scoped child of T in the scope-filtering example. -/
def depP : MavenDependency := ⟨"g", "P", "1", some "provided", false⟩

/-- World of the scope-filtering example: the test-scoped T declares a
compile-scoped child C and a provided-scoped child P. -/
def testScopeWorld : World :=
  [("g:T:1", Except.ok [depC, depP]),
   ("g:C:1", Except.ok [])]

/-- C1: for every input manifest the ResolvedSet returned by
resolveDependencyTree has pairwise distinct coordinate keys; the fuelled
recursion is stable above the measure bound, so the source recursion
(which has no fuel) terminates with that value even on cyclic graphs; and
the diamond graph A to B and C, both to D, yields exactly one D. -/
theorem claim1_resolution_dedup_and_terminates :
    (∀ (w : World) (fuel : Nat) (roots : List MavenDependency),
        ((resolveDependencyTree w fuel roots).map depKey).Nodup)
    ∧ (∀ (w : World) (st : ResolveState) (dep : MavenDependency) (f₁ f₂ : Nat),
        resolveMeasure w st < f₁ → resolveMeasure w st < f₂ →
        resolveDependency w f₁ dep st = resolveDependency w f₂ dep st)
    ∧ ((resolveDependencyTree diamondWorld 4 [depB, depC]).map depKey).count
        "g:D:1" = 1 := by
  refine ⟨resolveDependencyTree_nodup, ?_, by decide⟩
  intro w st dep f₁ f₂ h1 h2
  exact resolveDependency_stable w (resolveMeasure w st) st dep f₁ f₂ le_rfl h1 h2

/-- Witness for C1 on the cyclic graph: both fuel bounds exceed the
measure, and the stability part of the claim theorem applies, showing the
cyclic resolution is already stable at fuel 3. -/
theorem claim1_witness :
    resolveMeasure cycleWorld ⟨[], []⟩ < 3
    ∧ resolveMeasure cycleWorld ⟨[], []⟩ < 7
    ∧ resolveDependency cycleWorld 3 depA ⟨[], []⟩ =
        resolveDependency cycleWorld 7 depA ⟨[], []⟩ :=
  ⟨by decide, by decide,
    claim1_resolution_dedup_and_terminates.2.1 cycleWorld ⟨[], []⟩ depA 3 7
      (by decide) (by decide)⟩

/-- C2 counterexample: the test-scoped top-level dependency T has the
compile-scoped child C, and C does appear in the ResolvedSet, so a
test-scoped top-level dependency does contribute transitive dependencies,
contrary to the claim; only its test or provided children are excluded
(the provided-scoped child P is absent). -/
theorem claim2_counterexample :
    (resolveDependencyTree testScopeWorld 3 [depT]).map depKey =
      ["g:T:1", "g:C:1"] := by
  decide

/-- C2 (amended): a top-level dependency passing the processed/optional
guard is itself appended to the ResolvedSet whatever its scope; during
recursion a transitive child whose own scope is test or provided is
skipped, and a transitive child with any other scope is handed to
resolveDependency (only test and provided children are excluded); the
analyze_project handler separately filters test and provided scopes
before archive acquisition; and on the concrete example the test-scoped T
contributes its compile-scoped child C to the ResolvedSet while the
analyze filter then drops T itself. -/
theorem claim2_scope_filtering :
    (∀ (w : World) (f : Nat) (dep : MavenDependency) (st : ResolveState),
        st.processed.contains (depKey dep) = false → dep.optional = false →
        dep ∈ (resolveDependency w (f + 1) dep st).resolved)
    ∧ (∀ (w : World) (f : Nat) (st : ResolveState) (d : MavenDependency),
        d.scope = some "test" ∨ d.scope = some "provided" →
        transitiveStep w f st d = st)
    ∧ (∀ (w : World) (f : Nat) (st : ResolveState) (d : MavenDependency),
        ¬(d.scope = some "test" ∨ d.scope = some "provided") →
        transitiveStep w f st d = resolveDependency w f d st)
    ∧ (∀ d : MavenDependency,
        d.scope = some "test" ∨ d.scope = some "provided" →
        shouldAnalyzeDependency d = false)
    ∧ ((resolveDependencyTree testScopeWorld 3 [depT]).map depKey =
          ["g:T:1", "g:C:1"]
        ∧ analyzedDependencies (resolveDependencyTree testScopeWorld 3 [depT]) =
            [depC]) := by
  refine ⟨?_, ?_, ?_, ?_, by decide, by decide⟩
  · intro w f dep st h1 h2
    rw [resolveDependency_succ]
    rw [h1, h2]
    simp only [Bool.or_false, Bool.false_eq_true, if_false]
    split
    · exact List.mem_append_right _ (List.mem_singleton_self dep)
    · refine foldl_pres (fun s => dep ∈ s.resolved)
        (transitiveStep w f) ?_ _ _ ?_
      · intro s a hs
        unfold transitiveStep
        split
        · exact hs
        · exact resolved_mono w f a s dep hs
      · exact List.mem_append_right _ (List.mem_singleton_self dep)
  · intro w f st d hd
    unfold transitiveStep
    rcases hd with hd | hd <;> simp [hd]
  · intro w f st d hd
    unfold transitiveStep
    split
    next hcond =>
      exfalso
      simp only [Bool.or_eq_true, beq_iff_eq] at hcond
      rcases hcond with h | h
      · exact hd (Or.inr h)
      · exact hd (Or.inl h)
    · rfl
  · intro d hd
    unfold shouldAnalyzeDependency
    rcases hd with hd | hd <;> simp [hd]

/-- Witness for C2: the test-scoped dependency T itself lands in the
ResolvedSet of the concrete example, via the first part of the claim
theorem. -/
theorem claim2_witness :
    (⟨[], []⟩ : ResolveState).processed.contains (depKey depT) = false
    ∧ depT.optional = false
    ∧ depT ∈ (resolveDependency testScopeWorld 3 depT ⟨[], []⟩).resolved :=
  ⟨by decide, by decide,
    claim2_scope_filtering.1 testScopeWorld 2 depT ⟨[], []⟩
      (by decide) (by decide)⟩

/-- Dependency with an unobtainable POM for the subtree-failure example. -/
def depF : MavenDependency := ⟨"g", "F", "1", none, false⟩

/-- World in which the POM of F fails to fetch or parse. -/
def failWorld : World := [("g:F:1", Except.error "fetch failed")]

/-- C7: when the POM of a dependency cannot be obtained or parsed, the
catch in resolveDependency keeps the dependency itself in the ResolvedSet,
abandons only its subtree, and the enclosing loop continues with the
sibling dependencies from that state; the failure never escapes. -/
theorem claim7_subtree_failure_recoverable (w : World) (f : Nat)
    (dep : MavenDependency) (st : ResolveState) (msg : String)
    (h1 : st.processed.contains (depKey dep) = false)
    (h2 : dep.optional = false)
    (h3 : fetchPom w (depKey dep) = Except.error msg) :
    resolveDependency w (f + 1) dep st =
      ⟨st.resolved ++ [dep], depKey dep :: st.processed⟩
    ∧ (∀ sibs : List MavenDependency,
        (dep :: sibs).foldl (rootStep w (f + 1)) st =
          sibs.foldl (rootStep w (f + 1))
            ⟨st.resolved ++ [dep], depKey dep :: st.processed⟩) := by
  have hmain : resolveDependency w (f + 1) dep st =
      ⟨st.resolved ++ [dep], depKey dep :: st.processed⟩ := by
    rw [resolveDependency_succ, h1, h2, h3]
    rfl
  refine ⟨hmain, ?_⟩
  intro sibs
  rw [List.foldl_cons]
  unfold rootStep
  rw [hmain]

/-- Witness for C7: in the concrete failing world the dependency F stays
in the ResolvedSet with its subtree abandoned. -/
theorem claim7_witness :
    (⟨[], []⟩ : ResolveState).processed.contains (depKey depF) = false
    ∧ depF.optional = false
    ∧ fetchPom failWorld (depKey depF) = Except.error "fetch failed"
    ∧ resolveDependency failWorld 1 depF ⟨[], []⟩ =
        ⟨[depF], ["g:F:1"]⟩ := by
  refine ⟨by decide, by decide, by rfl, ?_⟩
  have h := claim7_subtree_failure_recoverable failWorld 0 depF ⟨[], []⟩
    "fetch failed" (by decide) (by decide) (by rfl)
  simpa using h.1

/-- Parent element of a POM as produced by the XML parser with
explicitArray false: each child element is a string when present. -/
structure ParentXml where
  groupId : Option String
  artifactId : Option String
  version : Option String
deriving DecidableEq, Repr

/-- Dependency element of a POM as produced by the XML parser; scope and
optional are absent unless declared, optional as a string. -/
structure DepXml where
  groupId : String
  artifactId : String
  version : String
  scope : Option String
  optional : Option String
deriving DecidableEq, Repr

/-- Project element of a parsed POM document: coordinate fields, the
optional parent element and the list of dependency elements (the
one-or-many normalization of the XML parser is already applied). -/
structure PomXml where
  groupId : Option String
  artifactId : Option String
  version : Option String
  parent : Option ParentXml
  dependencies : List DepXml
deriving DecidableEq, Repr

/-- Result record of parsePomContent; the TypeScript interface declares
the coordinate fields as strings but at runtime they may be undefined,
which the Option models. -/
structure MavenProject where
  groupId : Option String
  artifactId : Option String
  version : Option String
  dependencies : List MavenDependency
deriving DecidableEq, Repr

/-- Truthiness of a possibly absent string in JavaScript: undefined and
the empty string are falsy. -/
def truthy : Option String → Bool
  | some s => !s.isEmpty
  | none => false

/-- The JavaScript or-operator on possibly absent strings: the left
operand when truthy, otherwise the right operand. -/
def jsOr (a b : Option String) : Option String := if truthy a then a else b

/-- Shallow embedding of MavenParser.parsePomContent after XML parsing:
groupId and version fall back to the inline values of the parent element
via the or-operator, artifactId does not, each dependency element is
converted with optional compared against the string "true", and the parent
POM itself is never fetched or merged (the TODO in the source). -/
def parsePomContent (p : PomXml) : MavenProject :=
  { groupId := jsOr p.groupId (p.parent.bind (fun par => par.groupId)),
    artifactId := p.artifactId,
    version := jsOr p.version (p.parent.bind (fun par => par.version)),
    dependencies := p.dependencies.map (fun d =>
      { groupId := d.groupId, artifactId := d.artifactId, version := d.version,
        scope := d.scope, optional := d.optional == some "true" }) }

/-- Manifest that omits its own groupId and version but declares a parent
element carrying both. -/
def pomWithParent : PomXml :=
  { groupId := none, artifactId := some "child", version := none,
    parent := some ⟨some "p.group", some "parent", some "9"⟩,
    dependencies := [] }

/-- C6 counterexample: on a manifest omitting groupId and version with a
parent reference, parsePomContent returns the parent element values, not
undefined, so the missing fields are not surfaced as undefined. -/
theorem claim6_counterexample :
    (parsePomContent pomWithParent).groupId = some "p.group"
    ∧ (parsePomContent pomWithParent).version = some "9"
    ∧ (some "p.group" : Option String) ≠ none := by
  decide

/-- C6 (amended): when a manifest omits groupId, parsePomContent fills
that field from the inline groupId of the parent element, and likewise
for version, each field independently of the other; a missing field is
undefined exactly when the parent element also lacks it, and artifactId
is never inherited. -/
theorem claim6_parent_inline_fallback (p : PomXml) :
    (p.groupId = none →
      (parsePomContent p).groupId = p.parent.bind (fun par => par.groupId))
    ∧ (p.version = none →
      (parsePomContent p).version = p.parent.bind (fun par => par.version))
    ∧ (parsePomContent p).artifactId = p.artifactId
    ∧ (p.groupId = none → p.parent = none → (parsePomContent p).groupId = none)
    ∧ (p.version = none → p.parent = none →
        (parsePomContent p).version = none) := by
  refine ⟨?_, ?_, rfl, ?_, ?_⟩
  · intro hg
    rw [parsePomContent]
    simp [jsOr, hg, truthy]
  · intro hv
    rw [parsePomContent]
    simp [jsOr, hv, truthy]
  · intro hg hp
    rw [parsePomContent]
    simp [jsOr, hg, hp, truthy]
  · intro hv hp
    rw [parsePomContent]
    simp [jsOr, hv, hp, truthy]

/-- Manifest that omits only its groupId and declares a parent element,
while its own version is present. -/
def pomOnlyGroupIdMissing : PomXml :=
  { groupId := none, artifactId := some "child", version := some "2",
    parent := some ⟨some "p.group", some "parent", some "9"⟩,
    dependencies := [] }

/-- Witness for C6: the per-field fallback applies both to the manifest
missing both coordinates and to a manifest missing only its groupId. -/
theorem claim6_witness :
    pomWithParent.groupId = none
    ∧ pomOnlyGroupIdMissing.groupId = none
    ∧ (parsePomContent pomWithParent).groupId =
        pomWithParent.parent.bind (fun par => par.groupId)
    ∧ (parsePomContent pomOnlyGroupIdMissing).groupId =
        pomOnlyGroupIdMissing.parent.bind (fun par => par.groupId) :=
  ⟨by decide, by decide,
    (claim6_parent_inline_fallback pomWithParent).1 (by decide),
    (claim6_parent_inline_fallback pomOnlyGroupIdMissing).1 (by decide)⟩

/-- Word character of the regex character class backslash-w: ASCII
letters, digits and underscore. -/
def isWordChar (c : Char) : Bool := c.isAlpha || c.isDigit || c = '_'

/-- Whitespace character of the regex character class backslash-s. -/
def isWsChar (c : Char) : Bool := c.isWhitespace

/-- Greedy whitespace consumption (the regex star over whitespace). -/
def dropWs : List Char → List Char
  | [] => []
  | c :: cs => if isWsChar c then dropWs cs else c :: cs

/-- Maximal word-character run at the head (the regex plus over word
characters, paired with the remaining input). -/
def takeWord : List Char → List Char × List Char
  | [] => ([], [])
  | c :: cs =>
    if isWordChar c then
      let wr := takeWord cs
      (c :: wr.1, wr.2)
    else ([], c :: cs)

/-- Literal consumption: the remaining input when the literal heads the
input, otherwise failure. -/
def tryLit : List Char → List Char → Option (List Char)
  | [], cs => some cs
  | _ :: _, [] => none
  | l :: ls, c :: cs => if c = l then tryLit ls cs else none

/-- Alternatives of an optional capture group, in the backtracking order
of the regex engine: each matching literal first, then the empty match. -/
def altOptions (alts : List String) (cs : List Char) :
    List (Option String × List Char) :=
  (alts.filterMap (fun a => (tryLit a.data cs).map (fun rest => (some a, rest))))
    ++ [(none, cs)]

/-- Alternatives of the mandatory kind group class, interface or enum. -/
def kindAlts (alts : List String) (cs : List Char) :
    List (String × List Char) :=
  alts.filterMap (fun a => (tryLit a.data cs).map (fun rest => (a, rest)))

/-- Attempt of the class-header regex of enrichClassInfoFromSource at one
input position (after the word boundary): optional visibility group,
whitespace, optional abstract-or-final group, whitespace, mandatory kind
group, mandatory whitespace, mandatory name.  Returns the three captured
groups and the name of the first successful backtracking branch. -/
def matchClassHeaderAt (cs : List Char) :
    Option (Option String × Option String × String × String) :=
  (altOptions ["public", "protected", "private"] cs).findSome? (fun g1p =>
    let cs2 := dropWs g1p.2
    (altOptions ["abstract", "final"] cs2).findSome? (fun g2p =>
      let cs4 := dropWs g2p.2
      (kindAlts ["class", "interface", "enum"] cs4).findSome? (fun kp =>
        match kp.2 with
        | [] => none
        | c :: rest =>
          if isWsChar c then
            let wr := takeWord (dropWs rest)
            if wr.1.isEmpty then none
            else some (g1p.1, g2p.1, kp.1, String.mk wr.1)
          else none)))

/-- Word boundary of the regex: exactly one side of the position is a
word character (the start and end of input count as non-word). -/
def boundaryOk (prev : Option Char) (next : Option Char) : Bool :=
  (match prev with | some c => isWordChar c | none => false)
    != (match next with | some c => isWordChar c | none => false)

/-- Left-to-right scan for the first position where the class-header
regex matches, threading the previous character for the word boundary. -/
def scanClassHeader :
    Option Char → List Char →
    Option (Option String × Option String × String × String)
  | _, [] => none
  | prev, c :: cs =>
    match (if boundaryOk prev (some c) then matchClassHeaderAt (c :: cs)
           else none) with
    | some r => some r
    | none => scanClassHeader (some c) cs

/-- First match of the class-header regex in a source text. -/
def findClassHeader (s : String) :
    Option (Option String × Option String × String × String) :=
  scanClassHeader none s.data

/-- Extracted class record, mirroring the JavaClass interface of
models/types.ts restricted to the fields the claims reference; the method,
field, superclass, interface-list and documentation fields are not
modelled (no claim mentions them, and the javadoc enrichment step of the
source never touches the modelled fields). -/
structure JavaClass where
  name : String
  packageName : String
  isInterface : Bool
  isAbstract : Bool
  modifiers : List String
deriving DecidableEq, Repr

/-- Class-header portion of JarAnalyzer.enrichClassInfoFromSource: when
the regex matches, the modifiers are rebuilt from the captured groups, the
isInterface flag is the comparison of the kind keyword with interface, and
the isAbstract flag is set when the second group is abstract or the kind
is interface; without a match the record is unchanged. -/
def enrichClassInfoFromSource (classInfo : JavaClass) (sourceContent : String) :
    JavaClass :=
  match findClassHeader sourceContent with
  | none => classInfo
  | some (g1, g2, kind, _) =>
    { classInfo with
      modifiers :=
        (match g1 with | some m => [m] | none => [])
          ++ (match g2 with | some m => [m] | none => []),
      isInterface := kind == "interface",
      isAbstract := (g2 == some "abstract") || (kind == "interface") }

/-- Split of a character list at a separator character, as splitting a
path on slashes. -/
def splitChar (sep : Char) : List Char → List (List Char)
  | [] => [[]]
  | c :: cs =>
    let r := splitChar sep cs
    if c = sep then [] :: r
    else match r with
      | [] => [[c]]
      | h :: t => (c :: h) :: t

/-- Join of character lists with a separator character between them. -/
def joinChar (sep : Char) : List (List Char) → List Char
  | [] => []
  | [x] => x
  | x :: xs => x ++ sep :: joinChar sep xs

/-- Suffix test on strings by character lists. -/
def strEndsWith (s suf : String) : Bool := suf.data.isSuffixOf s.data

/-- Removal of the final characters of a string. -/
def strDropRight (s : String) (n : Nat) : String :=
  String.mk (s.data.take (s.data.length - n))

/-- Final path component, as path.basename on the slash-separated archive
paths handled by the analyzer. -/
def basenameOf (p : String) : String :=
  String.mk ((splitChar '/' p.data).getLastD [])

/-- Directory part, as path.dirname: the components before the last one
joined by slashes, or a dot when there is no directory part. -/
def dirnameOf (p : String) : String :=
  let comps := splitChar '/' p.data
  if comps.length ≤ 1 then "." else String.mk (joinChar '/' comps.dropLast)

/-- JarAnalyzer.classNameFromPath: strip the class or java suffix from the
final path component. -/
def classNameFromPath (filePath : String) : String :=
  let fileName := basenameOf filePath
  if strEndsWith fileName ".class" then strDropRight fileName 6
  else if strEndsWith fileName ".java" then strDropRight fileName 5
  else fileName

/-- JarAnalyzer.packageNameFromPath: the directory part with slashes
replaced by dots, empty for root-level entries. -/
def packageNameFromPath (filePath : String) : String :=
  let dirPath := dirnameOf filePath
  if dirPath == "." || dirPath == "/" then ""
  else String.mk (dirPath.data.map (fun c => if c = '/' then '.' else c))

/-- Leftmost occurrence of a pattern in a character list: the characters
before it and the characters after it. -/
def splitFirst (pat : List Char) : List Char → Option (List Char × List Char)
  | [] =>
    match tryLit pat [] with
    | some rest => some ([], rest)
    | none => none
  | c :: cs =>
    match tryLit pat (c :: cs) with
    | some rest => some ([], rest)
    | none => (splitFirst pat cs).map (fun pr => (c :: pr.1, pr.2))

/-- JavaScript String.replace with a plain pattern: only the first
occurrence is replaced. -/
def replaceFirst (s pat rep : String) : String :=
  match splitFirst pat.data s.data with
  | some (pre, post) => String.mk (pre ++ rep.data ++ post)
  | none => s

/-- JarAnalyzer.extractFileFromJar on an opened archive: the text of the
entry at the path, if present (the read-through source cache is a pure
lookup and does not alter the result). -/
def extractFileFromJar (jarEntries : List (String × String))
    (filePath : String) : Option String :=
  jarEntries.lookup filePath

/-- Entry of a zip archive: path, directory flag and text content. -/
structure ZipEntry where
  filename : String
  isDir : Bool
  content : String
deriving DecidableEq, Repr

/-- JarAnalyzer.parseJarFile: walk the archive entries; in sources mode
select java entries and in primary mode class entries, skipping names with
a dollar sign and directories; build the stub record with default public
modifiers and false flags; in sources mode enrich from the entry text, in
primary mode from the matching source entry of the sources sidecar when
present (the javadoc enrichment only fills the unmodelled documentation
text). -/
def entrySkipped (isSourcesJar : Bool) (file : ZipEntry) : Bool :=
  if isSourcesJar then
    !(strEndsWith file.filename ".java") || file.filename.data.contains '$'
      || file.isDir
  else
    !(strEndsWith file.filename ".class") || file.filename.data.contains '$'
      || file.isDir

/-- Construction of the class record for one selected archive entry: the
stub with default public modifiers and false flags, enriched from the
entry text in sources mode, and from the matching sidecar source entry in
primary mode when one exists. -/
def mkEntryClass (sourcesJar : List (String × String)) (isSourcesJar : Bool)
    (file : ZipEntry) : JavaClass :=
  let className := classNameFromPath file.filename
  let packageName := packageNameFromPath file.filename
  let stub : JavaClass := ⟨className, packageName, false, false, ["public"]⟩
  if isSourcesJar then
    enrichClassInfoFromSource stub file.content
  else
    match extractFileFromJar sourcesJar
        (replaceFirst file.filename ".class" ".java") with
    | some sourceContent => enrichClassInfoFromSource stub sourceContent
    | none => stub

def parseJarStep (sourcesJar : List (String × String)) (isSourcesJar : Bool)
    (classes : List JavaClass) (file : ZipEntry) : List JavaClass :=
  if entrySkipped isSourcesJar file then classes
  else classes ++ [mkEntryClass sourcesJar isSourcesJar file]

/-- JarAnalyzer.parseJarFile: the entry loop folded over the archive
entries with an empty class accumulator. -/
def parseJarFile (entries : List ZipEntry)
    (sourcesJar : List (String × String)) (isSourcesJar : Bool) :
    List JavaClass :=
  entries.foldl (parseJarStep sourcesJar isSourcesJar) []

/-- Enrichment from source cannot set isInterface without isAbstract on a
record whose isInterface flag starts false. -/
theorem enrich_interface_abstract (ci : JavaClass) (src : String)
    (h0 : ci.isInterface = false) :
    (enrichClassInfoFromSource ci src).isInterface = true →
    (enrichClassInfoFromSource ci src).isAbstract = true := by
  unfold enrichClassInfoFromSource
  split
  · intro h
    rw [h0] at h
    exact absurd h (by simp)
  · intro h
    simp only at h ⊢
    rw [h, Bool.or_true]

/-- The class record built for one entry satisfies the flag implication:
interface implies abstract. -/
theorem mkEntryClass_interface_abstract (sourcesJar : List (String × String))
    (isSourcesJar : Bool) (file : ZipEntry) :
    (mkEntryClass sourcesJar isSourcesJar file).isInterface = true →
    (mkEntryClass sourcesJar isSourcesJar file).isAbstract = true := by
  unfold mkEntryClass
  split
  · exact enrich_interface_abstract _ _ rfl
  · split
    · exact enrich_interface_abstract _ _ rfl
    · intro h
      exact absurd h (by simp)

/-- C10: every class produced by the extraction, in primary or sources
mode, with or without source enrichment, has isAbstract set whenever
isInterface is set; and without a sources sidecar in primary mode every
class is a stub with both flags false. -/
theorem claim10_interface_implies_abstract :
    (∀ (entries : List ZipEntry) (sourcesJar : List (String × String))
        (isSourcesJar : Bool) (c : JavaClass),
        c ∈ parseJarFile entries sourcesJar isSourcesJar →
        c.isInterface = true → c.isAbstract = true)
    ∧ (∀ (entries : List ZipEntry) (c : JavaClass),
        c ∈ parseJarFile entries [] false →
        c.isInterface = false ∧ c.isAbstract = false) := by
  constructor
  · intro entries sourcesJar isSourcesJar c hc
    have hstep : ∀ (classes : List JavaClass) (file : ZipEntry),
        (∀ x ∈ classes, x.isInterface = true → x.isAbstract = true) →
        ∀ x ∈ parseJarStep sourcesJar isSourcesJar classes file,
          x.isInterface = true → x.isAbstract = true := by
      intro classes file hP
      unfold parseJarStep
      split
      · exact hP
      · intro x hx
        rcases List.mem_append.mp hx with hx | hx
        · exact hP x hx
        · simp only [List.mem_singleton] at hx
          subst hx
          exact mkEntryClass_interface_abstract _ _ _
    exact foldl_pres
      (fun classes => ∀ x ∈ classes, x.isInterface = true → x.isAbstract = true)
      (parseJarStep sourcesJar isSourcesJar) hstep entries []
      (by intro x hx; cases hx) c hc
  · intro entries c hc
    have hstep : ∀ (classes : List JavaClass) (file : ZipEntry),
        (∀ x ∈ classes, x.isInterface = false ∧ x.isAbstract = false) →
        ∀ x ∈ parseJarStep [] false classes file,
          x.isInterface = false ∧ x.isAbstract = false := by
      intro classes file hP
      unfold parseJarStep
      split
      · exact hP
      · intro x hx
        rcases List.mem_append.mp hx with hx | hx
        · exact hP x hx
        · simp only [List.mem_singleton] at hx
          subst hx
          exact ⟨rfl, rfl⟩
    exact foldl_pres
      (fun classes => ∀ x ∈ classes, x.isInterface = false ∧ x.isAbstract = false)
      (parseJarStep [] false) hstep entries []
      (by intro x hx; cases hx) c hc

/-- Source archive containing a single interface declaration. -/
def sampleEntries : List ZipEntry :=
  [⟨"com/acme/Shape.java", false, "public interface Shape"⟩]

/-- Witness for C10: the interface extracted from the sample sources
archive has both flags set, the isAbstract flag via the claim theorem. -/
theorem claim10_witness :
    (⟨"Shape", "com.acme", true, true, ["public"]⟩ : JavaClass)
      ∈ parseJarFile sampleEntries [] true
    ∧ (⟨"Shape", "com.acme", true, true, ["public"]⟩ : JavaClass).isInterface
        = true
    ∧ (⟨"Shape", "com.acme", true, true, ["public"]⟩ : JavaClass).isAbstract
        = true :=
  ⟨by decide, by decide,
    claim10_interface_implies_abstract.1 sampleEntries [] true
      ⟨"Shape", "com.acme", true, true, ["public"]⟩ (by decide) (by decide)⟩

/-- Decidable equality for fallible results. -/
instance {ε α : Type _} [DecidableEq ε] [DecidableEq α] :
    DecidableEq (Except ε α) := fun a b =>
  match a, b with
  | Except.ok x, Except.ok y =>
    if h : x = y then Decidable.isTrue (by rw [h])
    else Decidable.isFalse (by intro hc; cases hc; exact h rfl)
  | Except.ok _, Except.error _ => Decidable.isFalse (by intro h; cases h)
  | Except.error _, Except.ok _ => Decidable.isFalse (by intro h; cases h)
  | Except.error x, Except.error y =>
    if h : x = y then Decidable.isTrue (by rw [h])
    else Decidable.isFalse (by intro hc; cases hc; exact h rfl)

/-- JavaScript String.prototype.trim: leading and trailing whitespace
removed, computed on the character list. -/
def jsTrim (s : String) : String :=
  String.mk ((dropWs (dropWs s.data).reverse).reverse)

/-- Choice type of the missing-dependency menu (the DownloadOption type
field of user-interaction.ts). -/
inductive DownloadType
  | main
  | sources
  | both
  | skip
deriving DecidableEq, Repr

/-- Option record of the missing-dependency menu with its description
string. -/
structure DownloadOption where
  dtype : DownloadType
  description : String
deriving DecidableEq, Repr

/-- UserInteractionService.promptForMissingDependency, as a function of
the raw operator response: the response is trimmed and switched on the
five digits; 5 throws the OFFLINE_MODE error; any other value falls into
the default case returning the sources option without re-prompting. -/
def promptForMissingDependency (response : String) :
    Except String DownloadOption :=
  let choice := jsTrim response
  if choice = "1" then Except.ok ⟨DownloadType.sources, "Download sources JAR"⟩
  else if choice = "2" then Except.ok ⟨DownloadType.main, "Download main JAR"⟩
  else if choice = "3" then Except.ok ⟨DownloadType.both, "Download both JARs"⟩
  else if choice = "4" then
    Except.ok ⟨DownloadType.skip, "Skip this dependency"⟩
  else if choice = "5" then Except.error "OFFLINE_MODE"
  else Except.ok ⟨DownloadType.sources, "Download sources JAR (default)"⟩

/-- C9: every operator response outside the five defined choices, after
trimming, yields the download-sources default without a re-prompt and
without an error. -/
theorem claim9_prompt_default (response : String)
    (h1 : jsTrim response ≠ "1") (h2 : jsTrim response ≠ "2")
    (h3 : jsTrim response ≠ "3") (h4 : jsTrim response ≠ "4")
    (h5 : jsTrim response ≠ "5") :
    promptForMissingDependency response =
      Except.ok ⟨DownloadType.sources, "Download sources JAR (default)"⟩ := by
  unfold promptForMissingDependency
  simp [h1, h2, h3, h4, h5]

/-- Witness for C9 at a concrete invalid response. -/
theorem claim9_witness :
    jsTrim "  banana " ≠ "1" ∧ jsTrim "  banana " ≠ "2"
    ∧ jsTrim "  banana " ≠ "3"
    ∧ jsTrim "  banana " ≠ "4" ∧ jsTrim "  banana " ≠ "5"
    ∧ promptForMissingDependency "  banana " =
        Except.ok ⟨DownloadType.sources, "Download sources JAR (default)"⟩ :=
  ⟨by decide, by decide, by decide, by decide, by decide,
    claim9_prompt_default "  banana " (by decide) (by decide) (by decide)
      (by decide) (by decide)⟩

/-- Kind of artifact the analyzer downloads or probes. -/
inductive ArtifactKind
  | main
  | sources
  | javadoc
deriving DecidableEq, Repr

/-- Observable interaction of one analyzeJar run: interactive prompts and
network fetches, in order. -/
inductive JarEvent
  | promptMissing
  | promptLimited
  | promptConfirm (kind : ArtifactKind)
  | netFetch (kind : ArtifactKind)
deriving DecidableEq, Repr

/-- Presence of the three conventional archives in the local
repository. -/
structure JarFs where
  mainPresent : Bool
  sourcesPresent : Bool
  javadocPresent : Bool
deriving DecidableEq, Repr

/-- Environment of one analyzeJar run: the local repository state, the
offline flag of the analyzer, the raw operator response to the
missing-dependency menu, the boolean answers the interaction service
returns for the two confirmation prompts and the limited-analysis prompt,
and whether each remote fetch would respond ok. -/
structure JarEnv where
  fs : JarFs
  offline : Bool
  menuResponse : String
  confirmMain : Bool
  confirmSources : Bool
  limitedYes : Bool
  netMain : Bool
  netSources : Bool
  netJavadoc : Bool
deriving DecidableEq, Repr

/-- Errors analyzeJar can propagate to its caller. -/
inductive JarError
  | offlineNotAvailable
  | userSkipped
  | enteredOfflineMode
  | downloadDeclined (kind : ArtifactKind)
  | fetchFailed (kind : ArtifactKind)
deriving DecidableEq, Repr

/-- Event trace and evolving repository state during acquisition. -/
structure AcqState where
  events : List JarEvent
  fs : JarFs
deriving DecidableEq, Repr

/-- Confirmation answer of the interaction service for one kind. -/
def confirmFor (env : JarEnv) : ArtifactKind → Bool
  | ArtifactKind.main => env.confirmMain
  | ArtifactKind.sources => env.confirmSources
  | ArtifactKind.javadoc => false

/-- Whether the remote repository serves the archive of one kind. -/
def netFor (env : JarEnv) : ArtifactKind → Bool
  | ArtifactKind.main => env.netMain
  | ArtifactKind.sources => env.netSources
  | ArtifactKind.javadoc => env.netJavadoc

/-- Local repository after persisting a downloaded archive of one kind. -/
def markPresent (fs : JarFs) : ArtifactKind → JarFs
  | ArtifactKind.main => { fs with mainPresent := true }
  | ArtifactKind.sources => { fs with sourcesPresent := true }
  | ArtifactKind.javadoc => { fs with javadocPresent := true }

/-- JarAnalyzer.downloadWithConfirmation: a confirmation prompt; a
negative answer aborts with an error; otherwise the fetch runs, a non-ok
response aborts with an error, and a success is persisted locally. -/
def downloadWithConfirmation (env : JarEnv) (kind : ArtifactKind)
    (st : AcqState) : AcqState × Option JarError :=
  let st1 : AcqState := ⟨st.events ++ [JarEvent.promptConfirm kind], st.fs⟩
  if confirmFor env kind = false then
    (st1, some (JarError.downloadDeclined kind))
  else
    let st2 : AcqState := ⟨st1.events ++ [JarEvent.netFetch kind], st1.fs⟩
    if netFor env kind = false then (st2, some (JarError.fetchFailed kind))
    else (⟨st2.events, markPresent st2.fs kind⟩, none)

/-- JarAnalyzer.downloadDependency for the types the menu can request:
both downloads sources then main and analyzes the sources archive; a
single type downloads and analyzes that archive; the returned flag is the
isSourcesJar mode of the later extraction. -/
def downloadDependency (env : JarEnv) (t : DownloadType) (st : AcqState) :
    AcqState × Except JarError Bool :=
  match t with
  | DownloadType.both =>
    match downloadWithConfirmation env ArtifactKind.sources st with
    | (st1, some e) => (st1, Except.error e)
    | (st1, none) =>
      match downloadWithConfirmation env ArtifactKind.main st1 with
      | (st2, some e) => (st2, Except.error e)
      | (st2, none) => (st2, Except.ok true)
  | DownloadType.sources =>
    match downloadWithConfirmation env ArtifactKind.sources st with
    | (st1, some e) => (st1, Except.error e)
    | (st1, none) => (st1, Except.ok true)
  | DownloadType.main =>
    match downloadWithConfirmation env ArtifactKind.main st with
    | (st1, some e) => (st1, Except.error e)
    | (st1, none) => (st1, Except.ok false)
  | DownloadType.skip => (st, Except.error JarError.userSkipped)

/-- JarAnalyzer.ensureSourcesJar: when the sources archive is absent and
the analyzer is online, the limited-analysis prompt is issued; on a
positive answer a confirmed download of the sources archive is attempted
and any failure is swallowed. -/
def ensureSourcesJar (env : JarEnv) (st : AcqState) : AcqState :=
  if st.fs.sourcesPresent = false ∧ env.offline = false then
    let st1 : AcqState := ⟨st.events ++ [JarEvent.promptLimited], st.fs⟩
    if env.limitedYes then
      (downloadWithConfirmation env ArtifactKind.sources st1).1
    else st1
  else st

/-- JarAnalyzer.ensureJavadocJar and fetchJavadocJar: when the
documentation archive is absent and the analyzer is online, a silent
fetch is attempted with no prompts; failures are swallowed. -/
def ensureJavadocJar (env : JarEnv) (st : AcqState) : AcqState :=
  if st.fs.javadocPresent = false ∧ env.offline = false then
    let st1 : AcqState := ⟨st.events ++ [JarEvent.netFetch ArtifactKind.javadoc], st.fs⟩
    if netFor env ArtifactKind.javadoc then
      ⟨st1.events, markPresent st1.fs ArtifactKind.javadoc⟩
    else st1
  else st

/-- Outcome of one analyzeJar run: the result (the isSourcesJar mode flag
of extraction on success), the interaction trace, the final repository
state and the offline flag after the run. -/
structure JarOutcome where
  result : Except JarError Bool
  events : List JarEvent
  fs : JarFs
  offlineAfter : Bool
deriving DecidableEq, Repr

/-- Tail of analyzeJar after the primary archive is acquired: a
best-effort sources acquisition when the primary is not already a sources
archive and none existed at the initial probe, then a best-effort javadoc
fetch, then extraction with the mode flag. -/
def analyzeJarFinish (env : JarEnv) (useSourcesJar : Bool)
    (sourcesJarExists : Bool) (st : AcqState) : JarOutcome :=
  let st1 :=
    if useSourcesJar = false ∧ sourcesJarExists = false then
      ensureSourcesJar env st
    else st
  let st2 := ensureJavadocJar env st1
  ⟨Except.ok useSourcesJar, st2.events, st2.fs, env.offline⟩

/-- JarAnalyzer.analyzeJar on a cache miss: use the local main archive in
primary mode when present; otherwise the local sources archive in sources
mode; otherwise fail immediately when offline, and when online issue the
missing-dependency menu, entering offline mode on choice 5, failing on
skip, and downloading per the choice; afterwards the best-effort sidecar
steps run. -/
def analyzeJar (env : JarEnv) : JarOutcome :=
  let mainJarExists := env.fs.mainPresent
  let sourcesJarExists := env.fs.sourcesPresent
  if mainJarExists then
    analyzeJarFinish env false sourcesJarExists ⟨[], env.fs⟩
  else if sourcesJarExists then
    analyzeJarFinish env true sourcesJarExists ⟨[], env.fs⟩
  else if env.offline then
    ⟨Except.error JarError.offlineNotAvailable, [], env.fs, env.offline⟩
  else
    let st : AcqState := ⟨[JarEvent.promptMissing], env.fs⟩
    match promptForMissingDependency env.menuResponse with
    | Except.error _ =>
      ⟨Except.error JarError.enteredOfflineMode, st.events, st.fs, true⟩
    | Except.ok opt =>
      match opt.dtype with
      | DownloadType.skip =>
        ⟨Except.error JarError.userSkipped, st.events, st.fs, env.offline⟩
      | t =>
        match downloadDependency env t st with
        | (st1, Except.error e) => ⟨Except.error e, st1.events, st1.fs, env.offline⟩
        | (st1, Except.ok useSourcesJar) =>
          analyzeJarFinish env useSourcesJar sourcesJarExists st1

/-- Confirmed downloads never emit the missing-dependency prompt. -/
theorem dwc_no_promptMissing (env : JarEnv) (kind : ArtifactKind)
    (st : AcqState)
    (h : JarEvent.promptMissing ∈ (downloadWithConfirmation env kind st).1.events) :
    JarEvent.promptMissing ∈ st.events := by
  unfold downloadWithConfirmation at h
  split at h
  · simp only [List.mem_append, List.mem_singleton] at h
    rcases h with h | h
    · exact h
    · cases h
  · split at h
    all_goals
      simp only [List.mem_append, List.mem_singleton] at h
      rcases h with (h | h) | h
      · exact h
      · cases h
      · cases h

/-- The best-effort sources step never emits the missing-dependency
prompt. -/
theorem ensureSourcesJar_no_promptMissing (env : JarEnv) (st : AcqState)
    (h : JarEvent.promptMissing ∈ (ensureSourcesJar env st).events) :
    JarEvent.promptMissing ∈ st.events := by
  unfold ensureSourcesJar at h
  split at h
  · split at h
    · have h2 := dwc_no_promptMissing env ArtifactKind.sources _ h
      simp only [List.mem_append, List.mem_singleton] at h2
      rcases h2 with h2 | h2
      · exact h2
      · cases h2
    · simp only [List.mem_append, List.mem_singleton] at h
      rcases h with h | h
      · exact h
      · cases h
  · exact h

/-- The best-effort javadoc step never emits the missing-dependency
prompt. -/
theorem ensureJavadocJar_no_promptMissing (env : JarEnv) (st : AcqState)
    (h : JarEvent.promptMissing ∈ (ensureJavadocJar env st).events) :
    JarEvent.promptMissing ∈ st.events := by
  unfold ensureJavadocJar at h
  split at h
  · split at h
    all_goals
      simp only [List.mem_append, List.mem_singleton] at h
      rcases h with h | h
      · exact h
      · cases h
  · exact h

/-- The tail of analyzeJar after acquisition never emits the
missing-dependency prompt. -/
theorem analyzeJarFinish_no_promptMissing (env : JarEnv) (u s : Bool)
    (st : AcqState)
    (h : JarEvent.promptMissing ∈ (analyzeJarFinish env u s st).events) :
    JarEvent.promptMissing ∈ st.events := by
  unfold analyzeJarFinish at h
  simp only at h
  have h1 := ensureJavadocJar_no_promptMissing env _ h
  split at h1
  · exact ensureSourcesJar_no_promptMissing env st h1
  · exact h1

/-- C3 (amended): whenever the main archive exists locally, analyzeJar
completes with primary-archive mode, the missing-dependency menu is never
invoked, and the offline flag is unchanged -- for every combination of
sidecar prompt answers and network outcomes, so the best-effort sidecar
steps never affect the primary result; the sidecar steps may however
issue the limited-analysis and confirmation prompts (see the
counterexample). -/
theorem claim3_local_main_no_menu (env : JarEnv)
    (h : env.fs.mainPresent = true) :
    (analyzeJar env).result = Except.ok false
    ∧ JarEvent.promptMissing ∉ (analyzeJar env).events
    ∧ (analyzeJar env).offlineAfter = env.offline := by
  have hrw : analyzeJar env =
      analyzeJarFinish env false env.fs.sourcesPresent ⟨[], env.fs⟩ := by
    unfold analyzeJar
    rw [h]
    rfl
  rw [hrw]
  refine ⟨rfl, ?_, rfl⟩
  intro hmem
  have h0 := analyzeJarFinish_no_promptMissing env false env.fs.sourcesPresent
    ⟨[], env.fs⟩ hmem
  cases h0

/-- Environment with a local main archive, no sidecars and the operator
answering no to everything. -/
def envLocalMain : JarEnv :=
  ⟨⟨true, false, false⟩, false, "", false, false, false, false, false, false⟩

/-- C3 counterexample: with the main archive local but the sources
sidecar absent and the analyzer online, analyzeJar does issue an
interactive prompt -- the limited-analysis prompt of ensureSourcesJar --
contradicting the no-prompt part of the claim. -/
theorem claim3_counterexample :
    JarEvent.promptLimited ∈ (analyzeJar envLocalMain).events := by
  decide

/-- Witness for C3 at the concrete local-main environment. -/
theorem claim3_witness :
    envLocalMain.fs.mainPresent = true
    ∧ (analyzeJar envLocalMain).result = Except.ok false :=
  ⟨by decide, (claim3_local_main_no_menu envLocalMain (by decide)).1⟩

/-- C8: with no local main or sources archive and the offline flag set,
analyzeJar fails immediately with the offline error, and the event trace
is empty: no prompt is issued and no network fetch happens. -/
theorem claim8_offline_fast_fail (env : JarEnv)
    (h1 : env.fs.mainPresent = false) (h2 : env.fs.sourcesPresent = false)
    (h3 : env.offline = true) :
    (analyzeJar env).result = Except.error JarError.offlineNotAvailable
    ∧ (analyzeJar env).events = [] := by
  have hrw : analyzeJar env =
      ⟨Except.error JarError.offlineNotAvailable, [], env.fs, env.offline⟩ := by
    unfold analyzeJar
    rw [h1, h2, h3]
    rfl
  rw [hrw]
  exact ⟨rfl, rfl⟩

/-- Environment with no local archives and the offline flag set. -/
def envOffline : JarEnv :=
  ⟨⟨false, false, false⟩, true, "1", true, true, true, true, true, true⟩

/-- Witness for C8 at the concrete offline environment. -/
theorem claim8_witness :
    envOffline.fs.mainPresent = false
    ∧ envOffline.fs.sourcesPresent = false
    ∧ envOffline.offline = true
    ∧ (analyzeJar envOffline).result =
        Except.error JarError.offlineNotAvailable :=
  ⟨by decide, by decide, by decide,
    (claim8_offline_fast_fail envOffline (by decide) (by decide)
      (by decide)).1⟩

/-- Map.set on an association list: replace in place when the key exists,
append otherwise (insertion order is preserved, as for a JavaScript
Map). -/
def mapSet {α : Type _} : List (String × α) → String → α → List (String × α)
  | [], k, v => [(k, v)]
  | p :: l, k, v => if p.1 = k then (k, v) :: l else p :: mapSet l k v

/-- Setting a key makes it found with the new value. -/
theorem mapSet_lookup_self {α : Type _} :
    ∀ (l : List (String × α)) (k : String) (v : α),
      (mapSet l k v).lookup k = some v := by
  intro l
  induction l with
  | nil =>
    intro k v
    simp [mapSet, List.lookup_cons]
  | cons p l ih =>
    intro k v
    unfold mapSet
    split
    · simp [List.lookup_cons]
    next hne =>
      rw [List.lookup_cons]
      have : (k == p.1) = false := by
        simp only [beq_eq_false_iff_ne, ne_eq]
        intro hk
        exact hne hk.symm
      rw [this]
      exact ih k v

/-- Setting a key leaves other keys untouched. -/
theorem mapSet_lookup_ne {α : Type _} :
    ∀ (l : List (String × α)) (k k' : String) (v : α), k' ≠ k →
      (mapSet l k v).lookup k' = l.lookup k' := by
  intro l
  induction l with
  | nil =>
    intro k k' v h
    simp only [mapSet, List.lookup_cons, List.lookup_nil]
    have : (k' == k) = false := by simp [h]
    rw [this]
  | cons p l ih =>
    intro k k' v h
    unfold mapSet
    split
    next heq =>
      rw [List.lookup_cons, List.lookup_cons]
      have h1 : (k' == k) = false := by simp [h]
      have h2 : (k' == p.1) = false := by
        rw [heq]
        exact h1
      rw [h1, h2]
    · rw [List.lookup_cons, List.lookup_cons]
      cases hk : k' == p.1
      · exact ih k k' v h
      · rfl

/-- A key not among the keys of an association list is not found. -/
theorem lookup_none_of_not_mem {α : Type _} :
    ∀ (l : List (String × α)) (k : String), k ∉ l.map Prod.fst →
      l.lookup k = none := by
  intro l
  induction l with
  | nil => intro k _; rfl
  | cons p l ih =>
    intro k hk
    rw [List.lookup_cons]
    simp only [List.map_cons, List.mem_cons] at hk
    push_neg at hk
    have : (k == p.1) = false := by simp [hk.1]
    rw [this]
    exact ih k hk.2

/-- Replay of an association list into a map by repeated set. -/
def insFold {α : Type _} (l : List (String × α)) (acc : List (String × α)) :
    List (String × α) :=
  l.foldl (fun acc kv => mapSet acc kv.1 kv.2) acc

/-- Replaying a duplicate-free association list looks up like the list
itself, falling back to the accumulator for absent keys. -/
theorem lookup_insFold {α : Type _} :
    ∀ (l : List (String × α)) (acc : List (String × α)) (k : String),
      (l.map Prod.fst).Nodup →
      (insFold l acc).lookup k =
        match l.lookup k with
        | some v => some v
        | none => acc.lookup k := by
  intro l
  induction l with
  | nil => intro acc k _; rfl
  | cons p l ih =>
    intro acc k hnd
    obtain ⟨k0, v0⟩ := p
    simp only [List.map_cons, List.nodup_cons] at hnd
    have hstep : insFold ((k0, v0) :: l) acc = insFold l (mapSet acc k0 v0) := rfl
    rw [hstep, ih _ k hnd.2, List.lookup_cons]
    by_cases hk : k = k0
    · subst hk
      have h1 : (k == k) = true := by simp
      rw [h1]
      have h2 : l.lookup k = none := lookup_none_of_not_mem l k hnd.1
      rw [h2, mapSet_lookup_self]
    · have h1 : (k == k0) = false := by simp [hk]
      rw [h1]
      cases l.lookup k
      · rw [mapSet_lookup_ne _ _ _ _ hk]
      · rfl

/-- In-memory state of the CacheService: the five stores, the enabled
flag, and the debounce timer modelled as a generation counter that every
scheduleAutoPersist call advances (clearing and re-arming the timeout). -/
structure CacheState where
  pomCache : List (String × MavenProject)
  jarCache : List (String × List JavaClass)
  dependencyTreeCache : List (String × List MavenDependency)
  sourceCodeCache : List (String × String)
  javadocCache : List (String × String)
  cacheEnabled : Bool
  persistTimerGen : Nat
deriving DecidableEq, Repr

/-- CacheService.scheduleAutoPersist: clear any pending timeout and arm a
new one, advancing the timer generation. -/
def scheduleAutoPersist (s : CacheState) : CacheState :=
  { s with persistTimerGen := s.persistTimerGen + 1 }

/-- CacheService.getCachedPom. -/
def getCachedPom (s : CacheState) (pomPath : String) : Option MavenProject :=
  s.pomCache.lookup pomPath

/-- CacheService.cachePom: update memory, then reschedule the flush. -/
def cachePom (s : CacheState) (pomPath : String) (project : MavenProject) :
    CacheState :=
  if s.cacheEnabled = false then s
  else scheduleAutoPersist { s with pomCache := mapSet s.pomCache pomPath project }

/-- CacheService.getCachedDependencyTree. -/
def getCachedDependencyTree (s : CacheState) (pomPath : String) :
    Option (List MavenDependency) :=
  s.dependencyTreeCache.lookup pomPath

/-- CacheService.cacheDependencyTree: update memory, then reschedule. -/
def cacheDependencyTree (s : CacheState) (pomPath : String)
    (dependencies : List MavenDependency) : CacheState :=
  if s.cacheEnabled = false then s
  else scheduleAutoPersist
    { s with dependencyTreeCache := mapSet s.dependencyTreeCache pomPath dependencies }

/-- CacheService.getCachedJarAnalysis, keyed by coordinate. -/
def getCachedJarAnalysis (s : CacheState) (dependency : MavenDependency) :
    Option (List JavaClass) :=
  s.jarCache.lookup (depKey dependency)

/-- CacheService.cacheJarAnalysis: update memory, then reschedule. -/
def cacheJarAnalysis (s : CacheState) (dependency : MavenDependency)
    (classes : List JavaClass) : CacheState :=
  if s.cacheEnabled = false then s
  else scheduleAutoPersist
    { s with jarCache := mapSet s.jarCache (depKey dependency) classes }

/-- CacheService.getCachedSourceCode. -/
def getCachedSourceCode (s : CacheState) (filename : String) : Option String :=
  s.sourceCodeCache.lookup filename

/-- CacheService.cacheSourceCode: update memory; the source contains no
scheduleAutoPersist call here. -/
def cacheSourceCode (s : CacheState) (filename source : String) : CacheState :=
  if s.cacheEnabled = false then s
  else { s with sourceCodeCache := mapSet s.sourceCodeCache filename source }

/-- CacheService.getCachedJavadoc. -/
def getCachedJavadoc (s : CacheState) (className : String) : Option String :=
  s.javadocCache.lookup className

/-- CacheService.cacheJavadoc: update memory; the source contains no
scheduleAutoPersist call here. -/
def cacheJavadoc (s : CacheState) (className javadoc : String) : CacheState :=
  if s.cacheEnabled = false then s
  else { s with javadocCache := mapSet s.javadocCache className javadoc }

/-- Key sanitization for the per-entry archive-metadata files: slashes and
colons replaced by underscores (a global regex replace). -/
def safeKey (k : String) : String :=
  String.mk (k.data.map (fun c => if c = '/' ∨ c = ':' then '_' else c))

/-- Path of the per-entry archive-metadata file of one coordinate key. -/
def jarFilePath (k : String) : String :=
  "jar-cache/" ++ safeKey k ++ ".json"

/-- Durable snapshot of the cache directory: one document per flat store
(absent until written), the per-entry archive-metadata files, and the
index document listing key and file path pairs. -/
structure CacheDisk where
  pomFile : Option (List (String × MavenProject))
  depTreeFile : Option (List (String × List MavenDependency))
  jarFiles : List (String × List JavaClass)
  jarIndexFile : Option (List (String × String))
deriving DecidableEq, Repr

/-- Loop body of the archive-metadata persistence: write the per-entry
file (overwriting any file at the same path) and append the key and path
to the index. -/
def persistJarStep
    (acc : List (String × List JavaClass) × List (String × String))
    (kv : String × List JavaClass) :
    List (String × List JavaClass) × List (String × String) :=
  (mapSet acc.1 (jarFilePath kv.1) kv.2, acc.2 ++ [(kv.1, jarFilePath kv.1)])

/-- CacheService.persistCache: a no-op when caching is disabled; otherwise
the manifest and resolved-set stores are written as whole documents, each
archive-metadata entry is written to its own file, and the index document
is rewritten; the sidecar-text and documentation stores are not
written. -/
def persistCache (s : CacheState) (disk : CacheDisk) : CacheDisk :=
  if s.cacheEnabled = false then disk
  else
    let jw := s.jarCache.foldl persistJarStep (disk.jarFiles, [])
    ⟨some s.pomCache, some s.dependencyTreeCache, jw.1, some jw.2⟩

/-- Loop body of the archive-metadata load: look the indexed file up and
set the entry, skipping entries whose file cannot be read. -/
def loadJarStep (jarFiles : List (String × List JavaClass))
    (acc : List (String × List JavaClass)) (entry : String × String) :
    List (String × List JavaClass) :=
  match jarFiles.lookup entry.2 with
  | some classes => mapSet acc entry.1 classes
  | none => acc

/-- CacheService.loadPersistedCache on startup: the manifest and
resolved-set documents are read when present (absent documents are an
empty cache), the archive-metadata entries are loaded through the index,
and the sidecar-text and documentation stores start empty because no
snapshot of them exists. -/
def loadPersistedCache (disk : CacheDisk) : CacheState :=
  { pomCache := disk.pomFile.getD []
    jarCache := (disk.jarIndexFile.getD []).foldl (loadJarStep disk.jarFiles) []
    dependencyTreeCache := disk.depTreeFile.getD []
    sourceCodeCache := []
    javadocCache := []
    cacheEnabled := true
    persistTimerGen := 0 }

/-- The index accumulated by the persistence loop is the key and path
pair of every entry, in order. -/
theorem persistJar_index :
    ∀ (l : List (String × List JavaClass))
      (acc : List (String × List JavaClass) × List (String × String)),
      (l.foldl persistJarStep acc).2 =
        acc.2 ++ l.map (fun kv => (kv.1, jarFilePath kv.1)) := by
  intro l
  induction l with
  | nil => intro acc; simp
  | cons kv l ih =>
    intro acc
    rw [List.foldl_cons, ih]
    simp [persistJarStep]

/-- The persistence loop leaves files at unwritten paths untouched. -/
theorem persistJar_files_ne :
    ∀ (l : List (String × List JavaClass))
      (acc : List (String × List JavaClass) × List (String × String))
      (p : String), (∀ kv ∈ l, jarFilePath kv.1 ≠ p) →
      ((l.foldl persistJarStep acc).1).lookup p = acc.1.lookup p := by
  intro l
  induction l with
  | nil => intro acc p _; rfl
  | cons kv l ih =>
    intro acc p h
    rw [List.foldl_cons, ih _ p (fun x hx => h x (List.mem_cons_of_mem _ hx))]
    exact mapSet_lookup_ne _ _ _ _
      (fun he => h kv (List.mem_cons_self kv l) he.symm)

/-- With pairwise distinct file paths, the persistence loop leaves every
entry readable at its path with its own value. -/
theorem persistJar_files_self :
    ∀ (l : List (String × List JavaClass))
      (acc : List (String × List JavaClass) × List (String × String)),
      (l.map (fun kv => jarFilePath kv.1)).Nodup →
      ∀ kv ∈ l,
        ((l.foldl persistJarStep acc).1).lookup (jarFilePath kv.1) = some kv.2 := by
  intro l
  induction l with
  | nil => intro acc _ kv hkv; cases hkv
  | cons kv0 l ih =>
    intro acc hnd kv hkv
    simp only [List.map_cons, List.nodup_cons] at hnd
    rw [List.foldl_cons]
    rcases List.mem_cons.mp hkv with hkv | hkv
    · subst hkv
      rw [persistJar_files_ne l _ (jarFilePath kv.1) ?_]
      · exact mapSet_lookup_self _ _ _
      · intro x hx he
        exact hnd.1 (he ▸ List.mem_map_of_mem (fun kv => jarFilePath kv.1) hx)
    · exact ih _ hnd.2 kv hkv

/-- When every indexed file holds the value of its entry, loading through
the index replays the original entries. -/
theorem loadJar_replay (jarFiles : List (String × List JavaClass)) :
    ∀ (l : List (String × List JavaClass))
      (acc : List (String × List JavaClass)),
      (∀ kv ∈ l, jarFiles.lookup (jarFilePath kv.1) = some kv.2) →
      (l.map (fun kv => (kv.1, jarFilePath kv.1))).foldl
          (loadJarStep jarFiles) acc
        = insFold l acc := by
  intro l
  induction l with
  | nil => intro acc _; rfl
  | cons kv l ih =>
    intro acc h
    rw [List.map_cons, List.foldl_cons]
    have hstep : loadJarStep jarFiles acc (kv.1, jarFilePath kv.1) =
        mapSet acc kv.1 kv.2 := by
      unfold loadJarStep
      rw [h kv (List.mem_cons_self kv l)]
    rw [hstep, ih _ (fun x hx => h x (List.mem_cons_of_mem _ hx))]
    rfl

/-- Project record with no coordinates and no dependencies. -/
def emptyProject : MavenProject := ⟨none, none, none, []⟩

/-- Cache state holding one sidecar-text entry and nothing else. -/
def cacheWithSource : CacheState :=
  ⟨[], [], [], [("lib.jar:com/acme/A.java", "class A")], [], true, 0⟩

/-- Empty durable snapshot. -/
def emptyDisk : CacheDisk := ⟨none, none, [], none⟩

/-- C4 counterexample: a sidecar-text entry present in memory when
persistCache runs is gone after reloading the persisted snapshot, so not
all five stores are mirrored to durable storage. -/
theorem claim4_counterexample :
    getCachedSourceCode cacheWithSource "lib.jar:com/acme/A.java" =
      some "class A"
    ∧ getCachedSourceCode
        (loadPersistedCache (persistCache cacheWithSource emptyDisk))
        "lib.jar:com/acme/A.java" = none := by
  decide

/-- C4 (amended): with caching enabled, persisting and reloading restores
the manifest and resolved-set stores exactly, and restores every
archive-metadata entry provided the store keys and their sanitized file
paths are pairwise distinct (coordinate keys are, since sanitization is
injective on ordinary coordinates); the sidecar-text and documentation
stores are not mirrored and reload empty. -/
theorem claim4_three_stores_roundtrip (s : CacheState) (disk : CacheDisk)
    (hEnabled : s.cacheEnabled = true)
    (hkeys : (s.jarCache.map Prod.fst).Nodup)
    (hpaths : (s.jarCache.map (fun kv => jarFilePath kv.1)).Nodup) :
    (loadPersistedCache (persistCache s disk)).pomCache = s.pomCache
    ∧ (loadPersistedCache (persistCache s disk)).dependencyTreeCache =
        s.dependencyTreeCache
    ∧ (∀ k, (loadPersistedCache (persistCache s disk)).jarCache.lookup k =
        s.jarCache.lookup k)
    ∧ (loadPersistedCache (persistCache s disk)).sourceCodeCache = []
    ∧ (loadPersistedCache (persistCache s disk)).javadocCache = [] := by
  have hdisk : persistCache s disk =
      ⟨some s.pomCache, some s.dependencyTreeCache,
        (s.jarCache.foldl persistJarStep (disk.jarFiles, [])).1,
        some (s.jarCache.foldl persistJarStep (disk.jarFiles, [])).2⟩ := by
    unfold persistCache
    rw [hEnabled]
    rfl
  rw [hdisk]
  refine ⟨rfl, rfl, ?_, rfl, rfl⟩
  intro k
  show ((s.jarCache.foldl persistJarStep (disk.jarFiles, [])).2.foldl
      (loadJarStep (s.jarCache.foldl persistJarStep (disk.jarFiles, [])).1) []).lookup k
    = s.jarCache.lookup k
  rw [persistJar_index, List.nil_append]
  rw [loadJar_replay _ s.jarCache []
    (fun kv hkv => persistJar_files_self s.jarCache _ hpaths kv hkv)]
  rw [lookup_insFold s.jarCache [] k hkeys]
  cases s.jarCache.lookup k <;> rfl

/-- Witness for C4 at the concrete one-entry state. -/
theorem claim4_witness :
    cacheWithSource.cacheEnabled = true
    ∧ (cacheWithSource.jarCache.map Prod.fst).Nodup
    ∧ (cacheWithSource.jarCache.map (fun kv => jarFilePath kv.1)).Nodup
    ∧ (loadPersistedCache (persistCache cacheWithSource emptyDisk)).pomCache =
        cacheWithSource.pomCache :=
  ⟨by decide, by decide, by decide,
    (claim4_three_stores_roundtrip cacheWithSource emptyDisk (by decide)
      (by decide) (by decide)).1⟩

/-- Empty enabled cache state. -/
def baseCacheState : CacheState := ⟨[], [], [], [], [], true, 0⟩

/-- C5 counterexample: cacheSourceCode leaves the debounce timer
generation unchanged -- it does not reschedule the flush -- while cachePom
advances it, so not every write accessor reschedules the timer. -/
theorem claim5_counterexample :
    (cacheSourceCode baseCacheState "f.java" "class F").persistTimerGen =
      baseCacheState.persistTimerGen
    ∧ ¬((cacheSourceCode baseCacheState "f.java" "class F").persistTimerGen =
        baseCacheState.persistTimerGen + 1)
    ∧ (cachePom baseCacheState "pom.xml" emptyProject).persistTimerGen =
        baseCacheState.persistTimerGen + 1 := by
  decide

/-- C5 (amended): every read accessor is a pure lookup on the in-memory
store; with caching enabled, cachePom, cacheDependencyTree and
cacheJarAnalysis update their store and advance the debounce timer
generation, while cacheSourceCode and cacheJavadoc update their store and
leave the timer untouched. -/
theorem claim5_accessor_effects (s : CacheState)
    (hEnabled : s.cacheEnabled = true) :
    (∀ p, getCachedPom s p = s.pomCache.lookup p)
    ∧ (∀ p, getCachedDependencyTree s p = s.dependencyTreeCache.lookup p)
    ∧ (∀ d, getCachedJarAnalysis s d = s.jarCache.lookup (depKey d))
    ∧ (∀ f, getCachedSourceCode s f = s.sourceCodeCache.lookup f)
    ∧ (∀ c, getCachedJavadoc s c = s.javadocCache.lookup c)
    ∧ (∀ p proj, cachePom s p proj =
        { s with pomCache := mapSet s.pomCache p proj,
                 persistTimerGen := s.persistTimerGen + 1 })
    ∧ (∀ p deps, cacheDependencyTree s p deps =
        { s with dependencyTreeCache := mapSet s.dependencyTreeCache p deps,
                 persistTimerGen := s.persistTimerGen + 1 })
    ∧ (∀ d cls, cacheJarAnalysis s d cls =
        { s with jarCache := mapSet s.jarCache (depKey d) cls,
                 persistTimerGen := s.persistTimerGen + 1 })
    ∧ (∀ f src, cacheSourceCode s f src =
        { s with sourceCodeCache := mapSet s.sourceCodeCache f src })
    ∧ (∀ c j, cacheJavadoc s c j =
        { s with javadocCache := mapSet s.javadocCache c j }) := by
  refine ⟨fun _ => rfl, fun _ => rfl, fun _ => rfl, fun _ => rfl, fun _ => rfl,
    ?_, ?_, ?_, ?_, ?_⟩
  · intro p proj
    unfold cachePom
    rw [hEnabled]
    rfl
  · intro p deps
    unfold cacheDependencyTree
    rw [hEnabled]
    rfl
  · intro d cls
    unfold cacheJarAnalysis
    rw [hEnabled]
    rfl
  · intro f src
    unfold cacheSourceCode
    rw [hEnabled]
    rfl
  · intro c j
    unfold cacheJavadoc
    rw [hEnabled]
    rfl

/-- Witness for C5 at the empty enabled state: cacheJavadoc updates its
store without advancing the timer, via the claim theorem. -/
theorem claim5_witness :
    baseCacheState.cacheEnabled = true
    ∧ cacheJavadoc baseCacheState "com.acme.A" "doc" =
        { baseCacheState with
            javadocCache := mapSet baseCacheState.javadocCache "com.acme.A" "doc" } :=
  ⟨by decide,
    (claim5_accessor_effects baseCacheState (by decide)).2.2.2.2.2.2.2.2.2
      "com.acme.A" "doc"⟩

end MavenExplorer
